import Mathlib

/-!
Verification development for the mail-digestion module `src/utils/email_parser.py`
of the dormdigest backend.

Strings are embedded as `List Char` (`Str`).  Python string operations used by the
code (`str.replace`, `str.strip`, `str.strip("<>")`) are translated directly.
External collaborators that the module calls but that are not part of the
repository (the stdlib `strptime`, the stdlib markup tokenizer, the Pillow-based
image compressor, the MIME parser) are modelled at their interface boundary,
following the specification; every definition notes its origin.
-/

/-- Embedded string type: Python `str` is modelled as a list of characters. -/
abbrev Str := List Char

/-- Coerce a Lean string literal into the embedded string type. -/
def str (s : String) : Str := s.data

/-- ASCII apostrophe character (U+0027). -/
def aposC : Char := Char.ofNat 39

/-- Double-quote character (U+0022). -/
def dquoteC : Char := Char.ofNat 34

/-- Backquote character (U+0060), member of the optional-apostrophe class of
the dormspam pattern. -/
def backquoteC : Char := Char.ofNat 96

/-- Right single quotation mark (U+2019), member of the optional-apostrophe
class of the dormspam pattern. -/
def rightQuoteC : Char := Char.ofNat 8217

/-- Python whitespace for `\s` and `str.strip`: space, tab, newline, carriage
return, vertical tab, form feed (ASCII portion of the Python semantics). -/
def isSpaceC (c : Char) : Bool :=
  c = ' ' || c = '\t' || c = '\n' || c = '\r' || c = Char.ofNat 11 || c = Char.ofNat 12

/-- Python `str.strip()`: remove leading and trailing whitespace. -/
def pyStrip (s : Str) : Str :=
  (((s.dropWhile isSpaceC).reverse).dropWhile isSpaceC).reverse

/-- Replacement loop of Python `str.replace`, structural on a fuel that the
wrapper instantiates with the input length; every step consumes at least one
character, so the zero-fuel branch is unreachable from the wrapper. -/
def pyReplaceFuel (old new : Str) : Nat → Str → Str
  | _, [] => []
  | 0, s => s
  | fuel + 1, c :: r =>
    if old ≠ [] ∧ old.isPrefixOf (c :: r)
    then new ++ pyReplaceFuel old new fuel (r.drop (old.length - 1))
    else c :: pyReplaceFuel old new fuel r

/-- Python `str.replace(old, new)`: replace every non-overlapping occurrence of
`old`, scanning left to right.  (The module never calls it with an empty `old`;
for `old = []` this model returns the input unchanged.) -/
def pyReplace (old new : Str) (s : Str) : Str := pyReplaceFuel old new s.length s

/-- Whether `old` occurs as a contiguous substring of the second argument
(the check Python performs implicitly inside `str.replace`). -/
def containsSub (old : Str) : Str → Bool
  | [] => old.isEmpty
  | c :: r => old.isPrefixOf (c :: r) || containsSub old r

/-- Python `str.strip("<>")` as applied to attachment content identifiers:
remove leading and trailing `<` and `>` characters. -/
def pyStripAngles (s : Str) : Str :=
  (((s.dropWhile (fun c => c = '<' || c = '>')).reverse).dropWhile
    (fun c => c = '<' || c = '>')).reverse

/-- Case-insensitive character comparison (Python `re.IGNORECASE` and the
case-insensitive name matching of `strptime`). -/
def eqCI (a b : Char) : Bool := a.toLower = b.toLower

/-- Consume a case-insensitive literal from the front of the input, returning
the remainder on success. -/
def litCI : Str → Str → Option Str
  | [], cs => some cs
  | _ :: _, [] => none
  | p :: ps, c :: cs => if eqCI p c then litCI ps cs else none

/-- Case-insensitive equality of embedded strings. -/
def strEqCI (a b : Str) : Bool := litCI a b = some []

/-- All characters are ASCII digits. -/
def allDigits (cs : Str) : Bool := cs.all (fun c => c.isDigit)

/-- Numeric value of a digit string. -/
def digitsToNat (cs : Str) : Nat := cs.foldl (fun a c => a * 10 + (c.toNat - 48)) 0

/-!  ### Date parsing (`parse_date`)

The module parses the Date header with the stdlib `strptime` and the format
`"%a, %d %b %Y %H:%M:%S %z"`; on a `ValueError` whose message reports
unconverted trailing data it strips that data and re-parses.  `strptime` itself
is not repository code; it is modelled from the spec, which describes the
accepted input as the fixed-width RFC-822-style form
`"Wkd, DD Mon YYYY HH:MM:SS +ZZZZ"`. -/

/-- A parsed timestamp: the fields `strptime` extracts for this format. -/
structure PyDateTime where
  year : Nat
  month : Nat
  day : Nat
  hour : Nat
  minute : Nat
  second : Nat
  tzOffsetMinutes : Int
deriving DecidableEq, Repr

/-- Weekday abbreviations accepted by the `%a` directive. -/
def wdayNames : List Str :=
  [str "Mon", str "Tue", str "Wed", str "Thu", str "Fri", str "Sat", str "Sun"]

/-- Month abbreviations accepted by the `%b` directive. -/
def monthNames : List Str :=
  [str "Jan", str "Feb", str "Mar", str "Apr", str "May", str "Jun",
   str "Jul", str "Aug", str "Sep", str "Oct", str "Nov", str "Dec"]

/-- Case-insensitive membership in a list of names. -/
def memCI (x : Str) (l : List Str) : Bool := l.any (fun y => strEqCI y x)

/-- One-based index of a month abbreviation (0 if absent; validation happens
before decoding). -/
def monthNumAux : List Str → Str → Nat → Nat
  | [], _, _ => 0
  | m :: ms, x, i => if strEqCI m x then i else monthNumAux ms x (i + 1)

/-- One-based month number of a month abbreviation. -/
def monthNum (x : Str) : Nat := monthNumAux monthNames x 1

/-- Take exactly `n` characters from the input, returning them and the
remainder. -/
def takeN : Nat → Str → Option (Str × Str)
  | 0, cs => some ([], cs)
  | _ + 1, [] => none
  | n + 1, c :: cs => (takeN n cs).map (fun p => (c :: p.1, p.2))

/-- One fixed-width field of the timestamp format: its width and its
validity check. -/
structure FSpec where
  width : Nat
  ok : Str → Bool

/-- Run a list of fixed-width fields over the input, returning the field
strings and the unconsumed remainder. -/
def runFields : List FSpec → Str → Option (List Str × Str)
  | [], cs => some ([], cs)
  | f :: fs, cs =>
    (takeN f.width cs).bind fun p =>
      if f.ok p.1 then (runFields fs p.2).map (fun q => (p.1 :: q.1, q.2)) else none

/-- Modelled from the spec: the field layout of the accepted RFC-822-style
timestamp `"Wkd, DD Mon YYYY HH:MM:SS +ZZZZ"` (the format string
`"%a, %d %b %Y %H:%M:%S %z"` of the source). -/
def fmtRfc822 : List FSpec :=
  [⟨3, fun s => memCI s wdayNames⟩,
   ⟨2, fun s => s = str ", "⟩,
   ⟨2, fun s => allDigits s && 1 ≤ digitsToNat s && digitsToNat s ≤ 31⟩,
   ⟨1, fun s => s = str " "⟩,
   ⟨3, fun s => memCI s monthNames⟩,
   ⟨1, fun s => s = str " "⟩,
   ⟨4, fun s => allDigits s⟩,
   ⟨1, fun s => s = str " "⟩,
   ⟨2, fun s => allDigits s && digitsToNat s ≤ 23⟩,
   ⟨1, fun s => s = str ":"⟩,
   ⟨2, fun s => allDigits s && digitsToNat s ≤ 59⟩,
   ⟨1, fun s => s = str ":"⟩,
   ⟨2, fun s => allDigits s && digitsToNat s ≤ 61⟩,
   ⟨1, fun s => s = str " "⟩,
   ⟨1, fun s => s = str "+" ∨ s = str "-"⟩,
   ⟨4, fun s => allDigits s⟩]

/-- Decode the sixteen field strings of the timestamp format into a
`PyDateTime`. -/
def decodeRfc822 : List Str → Option PyDateTime
  | [_wd, _c1, dd, _s1, mon, _s2, yyyy, _s3, hh, _c2, mi, _c3, ss, _s4, sg, tzd] =>
    some { year := digitsToNat yyyy
           month := monthNum mon
           day := digitsToNat dd
           hour := digitsToNat hh
           minute := digitsToNat mi
           second := digitsToNat ss
           tzOffsetMinutes :=
             (if sg = str "-" then (-1 : Int) else 1) *
               (digitsToNat (tzd.take 2) * 60 + digitsToNat (tzd.drop 2)) }
  | _ => none

/-- Modelled from the spec: the matching core of `strptime` for the fixed
format — the parsed value and the unconverted remainder. -/
def strptimeCore (cs : Str) : Option (PyDateTime × Str) :=
  (runFields fmtRfc822 cs).bind fun p => (decodeRfc822 p.1).map (fun d => (d, p.2))

/-- Failure modes of the modelled `strptime`: the input does not match the
format at all, or trailing characters remain unconverted. -/
inductive StrptimeError where
  | formatMismatch
  | unconvertedDataRemains (extra : Str)
deriving DecidableEq, Repr

/-- Modelled from the spec: `datetime.strptime` for the fixed format, failing
with the unconverted remainder when the input extends past the format. -/
def strptimeRfc822 (cs : Str) : Except StrptimeError PyDateTime :=
  match strptimeCore cs with
  | none => .error .formatMismatch
  | some (d, rest) => if rest = [] then .ok d else .error (.unconvertedDataRemains rest)

/-- `parse_date` of the source: try `strptime`; if the failure reports
unconverted trailing data, drop that many characters from the end of the input
and re-parse; re-raise any other failure. -/
def parse_date (cs : Str) : Except StrptimeError PyDateTime :=
  match strptimeRfc822 cs with
  | .ok d => .ok d
  | .error .formatMismatch => .error .formatMismatch
  | .error (.unconvertedDataRemains extra) =>
    strptimeRfc822 (cs.take (cs.length - extra.length))

/-!  ### Markup-to-Text Converter (`HTML2TextConverter`, `html2text`)

The handler class of the source consumes a stream of start-tag, end-tag,
text-data and named-entity events.  The event stream itself is produced by the
stdlib markup tokenizer, which is not repository code; it is modelled from the
spec, which describes the document as streamed into exactly those four kinds of
events. -/

/-- One event of the markup stream. -/
inductive HEvent where
  | startTag (t : Str)
  | endTag (t : Str)
  | data (s : Str)
  | entityref (n : Str)
deriving DecidableEq, Repr

/-- The fixed entity table of `HTML2TextConverter.entities`. -/
def entitiesTable : List (Str × Str) :=
  [(str "nbsp", str " "),
   (str "lt", str "<"),
   (str "gt", str ">"),
   (str "amp", str "&"),
   (str "quot", [dquoteC]),
   (str "apos", [aposC])]

/-- `self.entities.get(name, "")` of `handle_entityref`. -/
def entityResolve (n : Str) : Str := (entitiesTable.lookup n).getD []

/-- Tag names whose end tag emits a line break (`handle_endtag`). -/
def blockEndTags : List Str :=
  [str "p", str "div", str "li",
   str "h1", str "h2", str "h3", str "h4", str "h5", str "h6"]

/-- The event handlers of `HTML2TextConverter`, acting on the accumulated
`text_parts`. -/
def handleEvent (parts : List Str) : HEvent → List Str
  | .startTag t => if t = str "br" then parts ++ [str "\n"] else parts
  | .endTag t => if blockEndTags.contains t then parts ++ [str "\n"] else parts
  | .data s => parts ++ [s]
  | .entityref n => parts ++ [entityResolve n]

/-- `get_text`: join the accumulated parts and strip surrounding whitespace. -/
def getText (parts : List Str) : Str := pyStrip parts.flatten

/-- Feed a whole event stream through the handlers and read the text. -/
def convertEvents (evts : List HEvent) : Str := getText (evts.foldl handleEvent [])

/-- Modelled from the spec: the external markup tokenizer.  It streams the
document into start-tag, end-tag, text-data and named-entity events: a `<`
opens a tag (with `</` an end tag; attributes are skipped up to the closing
`>`), a `&` starts a named entity reference (alphanumeric name, optional
closing `;`), and any other maximal run of characters is text data.  The loop
is structural on a fuel the wrapper instantiates with the input length; every
step consumes at least one character, so the zero-fuel branch is unreachable
from the wrapper. -/
def tokenizeFuel : Nat → Str → List HEvent
  | _, [] => []
  | 0, _ => []
  | fuel + 1, c :: rest =>
    if c = '<' then
      if rest.head? = some '/' then
        HEvent.endTag ((rest.drop 1).takeWhile (fun x => ¬ x = '>')) ::
          tokenizeFuel fuel ((rest.dropWhile (fun x => ¬ x = '>')).drop 1)
      else
        HEvent.startTag (rest.takeWhile (fun x => ¬ (x = '>' ∨ x = ' '))) ::
          tokenizeFuel fuel ((rest.dropWhile (fun x => ¬ x = '>')).drop 1)
    else if c = '&' then
      let r2 := rest.dropWhile Char.isAlphanum
      HEvent.entityref (rest.takeWhile Char.isAlphanum) ::
        tokenizeFuel fuel (if r2.head? = some ';' then r2.drop 1 else r2)
    else
      HEvent.data (c :: rest.takeWhile (fun x => ¬ (x = '<' ∨ x = '&'))) ::
        tokenizeFuel fuel (rest.dropWhile (fun x => ¬ (x = '<' ∨ x = '&')))

def tokenize (cs : Str) : List HEvent := tokenizeFuel cs.length cs

/-- `html2text` of the source: tokenize, feed the handlers, read the text. -/
def html2text (h : Str) : Str := convertEvents (tokenize h)

/-!  ### Broadcast/Color Extractor (`DORMSPAM_PATTERN`, `Email.color`)

The source applies the fixed pattern
`\b[bB]cc[APOSTROPHES]?e?d\s+to\s+(all\s+)?(?:dorms|dormspam)[;,.]?\s+([\*\s\w-]+)\s+for bc-talk\b`
case-insensitively with `re.search` and returns capture group 2.  The pattern
is hand-compiled here into a backtracking matcher whose alternative lists are
ordered exactly as the Python engine explores them: leftmost start position
first, greedy quantifiers longest-first, alternation left branch first. -/

/-- Python `\w` (ASCII portion): letters, digits, underscore. -/
def isWordC (c : Char) : Bool := c.isAlphanum || c = '_'

/-- The optional apostrophe-like class of the pattern. -/
def isApostLikeC (c : Char) : Bool :=
  c = rightQuoteC || c = aposC || c = backquoteC || c = '-'

/-- The separator class of the pattern. -/
def isSepC (c : Char) : Bool := c = ';' || c = ',' || c = '.'

/-- The capture-group character class of the pattern: star, whitespace, word
characters and hyphen. -/
def classStarC (c : Char) : Bool := c = '*' || isSpaceC c || isWordC c || c = '-'

/-- A matcher piece: the preference-ordered list of possible remainders. -/
abbrev MatchR := Str → List Str

/-- Sequential composition of matcher pieces; the flattened order is the
backtracking order of the engine. -/
def mseq (m1 m2 : MatchR) : MatchR := fun cs => (m1 cs).flatMap m2

/-- Alternation, left branch preferred. -/
def malt (m1 m2 : MatchR) : MatchR := fun cs => m1 cs ++ m2 cs

/-- Greedy option: the consuming branch is preferred. -/
def mopt (m : MatchR) : MatchR := fun cs => m cs ++ [cs]

/-- Match one character of a class. -/
def mchar (p : Char → Bool) : MatchR := fun cs =>
  match cs with
  | [] => []
  | c :: r => if p c then [r] else []

/-- Match a case-insensitive literal. -/
def mlitCI (pat : Str) : MatchR := fun cs =>
  match litCI pat cs with
  | some r => [r]
  | none => []

/-- Greedy plus over a character class: remainders from the longest take down
to one character. -/
def mplusGreedy (p : Char → Bool) : Str → List Str
  | [] => []
  | c :: r => if p c then mplusGreedy p r ++ [r] else []

/-- Greedy plus recording the consumed characters, longest first: the capture
alternatives of group 2. -/
def mplusCap (p : Char → Bool) : Str → List (Str × Str)
  | [] => []
  | c :: r =>
    if p c then (mplusCap p r).map (fun pr => (c :: pr.1, pr.2)) ++ [([c], r)]
    else []

/-- `\s+`, greedy. -/
def mspaces : MatchR := mplusGreedy isSpaceC

/-- The pattern up to and including the `[;,.]?\s+` that precedes capture
group 2. -/
def patA : MatchR :=
  mseq (mchar (eqCI 'b'))
  (mseq (mlitCI (str "cc"))
  (mseq (mopt (mchar isApostLikeC))
  (mseq (mopt (mchar (eqCI 'e')))
  (mseq (mchar (eqCI 'd'))
  (mseq mspaces
  (mseq (mlitCI (str "to"))
  (mseq mspaces
  (mseq (mopt (mseq (mlitCI (str "all")) mspaces))
  (mseq (malt (mlitCI (str "dorms")) (mlitCI (str "dormspam")))
  (mseq (mopt (mchar isSepC)) mspaces))))))))))

/-- The pattern after capture group 2: `\s+for bc-talk\b`.  The literal starts
with a non-whitespace character, so the whitespace run is consumed maximally
and the piece is deterministic. -/
def patB (cs : Str) : Bool :=
  (cs.takeWhile isSpaceC ≠ []) &&
    (match litCI (str "for bc-talk") (cs.dropWhile isSpaceC) with
     | some r2 =>
       (match r2 with
        | [] => true
        | c :: _ => ¬ isWordC c)
     | none => false)

/-- Try the whole pattern at one position.  The leading word boundary requires
the previous character to be a non-word character (the first pattern character
is a word character); on success the group-2 capture of the preferred
alternative is returned. -/
def matchColorAt (prevWord : Bool) (cs : Str) : Option Str :=
  if prevWord then none
  else
    (patA cs).findSome? fun r1 =>
      (mplusCap classStarC r1).findSome? fun pr =>
        if patB pr.2 then some pr.1 else none

/-- `re.search`: try every start position left to right, tracking whether the
previous character is a word character for the boundary test. -/
def searchColor : Bool → Str → Option Str
  | _, [] => none
  | prevWord, c :: r =>
    match matchColorAt prevWord (c :: r) with
    | some cap => some cap
    | none => searchColor (isWordC c) r

/-!  ### Data model and digestion (`Email`, `nibble`, `eat`) -/

/-- `EmailAddress` of the source. -/
structure EmailAddress where
  username : Str
  domain : Str
deriving DecidableEq, Repr

/-- `Contact` of the source: an address with an optional name. -/
structure Contact where
  email : EmailAddress
  name : Option Str
deriving DecidableEq, Repr

/-- `Email` of the source: the digested record.  `content` is the dictionary
from content-type tag to body string, as an association list in insertion
order. -/
structure Email where
  sent : PyDateTime
  sender : Contact
  subject : Str
  thread_topic : Option Str
  content : List (Str × Str)
  to_ : Option Contact
  message_id : Str
deriving DecidableEq, Repr

/-- `Email.plaintext`: the plain body if present, else the converted HTML
body, else the empty string. -/
def Email.plaintext (e : Email) : Str :=
  match e.content.lookup (str "text/plain") with
  | some s => s
  | none =>
    match e.content.lookup (str "text/html") with
    | some h => html2text h
    | none => []

/-- `Email.color`: search the dormspam pattern in the plaintext and return
capture group 2. -/
def Email.color (e : Email) : Option Str := searchColor false e.plaintext

/-- `Email.dormspam`: `bool(self.color)` — false for `None` and for the empty
string, true otherwise. -/
def Email.dormspam (e : Email) : Bool :=
  match e.color with
  | none => false
  | some s => !s.isEmpty

/-- Characters of the local part of the address pattern
`[a-zA-Z0-9._%+-]`. -/
def isUserC (c : Char) : Bool :=
  c.isAlphanum || c = '.' || c = '_' || c = '%' || c = '+' || c = '-'

/-- Characters of the domain part of the address pattern `[a-zA-Z0-9.-]`. -/
def isDomC (c : Char) : Bool := c.isAlphanum || c = '.' || c = '-'

/-- The `\.[a-zA-Z]{2,}$` tail requirement of the address pattern: a final
dot followed by at least two letters, with a non-empty part before the dot. -/
def domainTailOk (dom : Str) : Bool :=
  let revTail := dom.reverse.takeWhile (fun c => ¬ c = '.')
  let revRest := dom.reverse.dropWhile (fun c => ¬ c = '.')
  match revRest with
  | '.' :: pre => pre ≠ [] && 2 ≤ revTail.length && revTail.all Char.isAlpha
  | _ => false

/-- Modelled from the spec and the pattern string of the source: the address
validator `_parser_email_address` (the generic `Parser` class lives outside the
packaged sources).  The raw string must match
`^[a-zA-Z0-9._%+-]+@[a-zA-Z0-9.-]+\.[a-zA-Z]{2,}$`; on a match it is split at
the `@` into username and domain, otherwise construction fails. -/
def parseEmailAddress (s : Str) : Option EmailAddress :=
  let user := s.takeWhile (fun c => ¬ c = '@')
  match s.dropWhile (fun c => ¬ c = '@') with
  | '@' :: dom =>
    if user ≠ [] ∧ user.all isUserC ∧ dom.all isDomC ∧ domainTailOk dom
    then some ⟨user, dom⟩ else none
  | _ => none

/-- One attachment record as the MIME parser yields it: content identifier
(possibly angle-bracketed), optional transfer encoding, raw payload. -/
structure Attachment where
  contentId : Str
  contentTransferEncoding : Option Str
  payload : Str
deriving DecidableEq, Repr

/-- Modelled from the spec: the output of the external MIME parser — header
mapping, From/To pair lists, subject, Message-ID, date, the body variants and
the ordered attachment list. -/
structure MailParsed where
  message_id : Str
  date : Option PyDateTime
  from_ : List (Str × Str)
  subject : Str
  to_ : List (Str × Str)
  headers : List (Str × Str)
  text_plain : List Str
  text_html : List Str
  attachments : List Attachment
deriving DecidableEq, Repr

/-- Failure of the external image compressor (a payload that is not a
decodable image). -/
inductive CompressError where
  | notAnImage
deriving DecidableEq, Repr

/-- The failures digestion can surface: the `EmailMissingHeaders` exception
with its message, an address that fails the pattern, a propagated compressor
failure, and the index error Python would raise on an empty list (unreachable
after the truthiness checks). -/
inductive EatError where
  | missingHeaders (msg : Str)
  | addressFormat (s : Str)
  | imageError (e : CompressError)
  | indexError
deriving DecidableEq, Repr

/-- `nibble`: return the header value if truthy, else record the header name
in the accumulator (when one is supplied) and return nothing. -/
def nibble {α : Type} (toB : α → Bool) (name : Str) (data : α)
    (acc : Option (List Str)) : Option α × Option (List Str) :=
  if toB data then (some data, acc)
  else (none, acc.map (fun l => l ++ [name]))

/-- The header-digestion phase of `eat`: the four required nibbles threading
the accumulator, and the untracked To nibble. -/
structure DigestedHeaders where
  message_id : Option Str
  sent : Option PyDateTime
  sender : Option (List (Str × Str))
  subject : Option Str
  to_ : Option (List (Str × Str))
  headers_not_found : List Str

/-- Run the five `nibble` calls of `eat` in source order. -/
def digestHeaders (m : MailParsed) : DigestedHeaders :=
  let r1 := nibble (fun s : Str => !s.isEmpty) (str "Message-ID") m.message_id (some [])
  let r2 := nibble (fun d : Option PyDateTime => d.isSome) (str "Date") m.date r1.2
  let r3 := nibble (fun l : List (Str × Str) => !l.isEmpty) (str "From") m.from_ r2.2
  let r4 := nibble (fun s : Str => !s.isEmpty) (str "Subject") m.subject r3.2
  let r5 := nibble (fun l : List (Str × Str) => !l.isEmpty) (str "To") m.to_ none
  ⟨r1.1, r2.1.join, r3.1, r4.1, r5.1, r4.2.getD []⟩

/-- The list of required headers that were missing. -/
def headersNotFound (m : MailParsed) : List Str := (digestHeaders m).headers_not_found

/-- Python `repr` of a header name as used in the failure message. -/
def pyRepr (s : Str) : Str := aposC :: s ++ [aposC]

/-- The `EmailMissingHeaders` message: `failed to parse:` followed by the
comma-joined reprs of the missing names. -/
def formatHeaders (hs : List Str) : Str :=
  str "failed to parse: " ++ ((hs.map pyRepr).intersperse (str ", ")).flatten

/-- `f"[cid:{cid}]"`. -/
def cidMarker (cid : Str) : Str := str "[cid:" ++ cid ++ str "]"

/-- `f'src="cid:{cid}"'`. -/
def srcCidMarker (cid : Str) : Str :=
  str "src=" ++ [dquoteC] ++ str "cid:" ++ cid ++ [dquoteC]

/-- `f'src="data:image/png;{cte},{payload_compressed}"'`. -/
def srcDataUri (cte comp : Str) : Str :=
  str "src=" ++ [dquoteC] ++ str "data:image/png;" ++ cte ++ str "," ++ comp ++ [dquoteC]

/-- `attachment.get("content_transfer_encoding") or "base64"`: the transfer
encoding, defaulting to base64 when absent or empty. -/
def cteOf (a : Attachment) : Str :=
  match a.contentTransferEncoding with
  | none => str "base64"
  | some c => if c = [] then str "base64" else c

/-- `attachment["payload"].replace("\n", "")`: the payload with embedded
newlines stripped. -/
def payloadFixed (a : Attachment) : Str := pyReplace (str "\n") [] a.payload

/-- The plaintext cleanup loop of `eat`: for every attachment with a non-empty
stripped content identifier, delete the `[cid:...]` marker. -/
def stripCidMarkers (atts : List Attachment) (p : Str) : Str :=
  atts.foldl
    (fun acc a =>
      let cid := pyStripAngles a.contentId
      if cid ≠ [] then pyReplace (cidMarker cid) [] acc else acc)
    p

/-- The HTML inlining loop of `eat`: for every attachment with a non-empty
stripped content identifier, compress the newline-stripped payload with the
external compressor `ci` and substitute the data URI for the cid reference.
A compressor failure aborts the loop. -/
def inlineImages (ci : Str → Except CompressError Str) (atts : List Attachment)
    (h : Str) : Except CompressError Str :=
  atts.foldlM
    (fun acc a =>
      let cid := pyStripAngles a.contentId
      if cid ≠ [] then do
        let comp ← ci (payloadFixed a)
        pure (pyReplace (srcCidMarker cid) (srcDataUri (cteOf a) comp) acc)
      else pure acc)
    h

/-- `eat`: digest a raw (pre-parsed) mail object into an `Email`,
parameterised by the external image compressor `ci`.  Header digestion and the
aggregated missing-headers failure come first, then contact construction, then
the body/content phase with the two inline-image rewrites. -/
def eat (ci : Str → Except CompressError Str) (m : MailParsed) : Except EatError Email := do
  let dh := digestHeaders m
  if dh.headers_not_found ≠ [] then
    throw (.missingHeaders (formatHeaders dh.headers_not_found))
  else
    let thread_topic := m.headers.lookup (str "Thread-Topic")
    match dh.message_id, dh.sent, dh.sender, dh.subject with
    | some mid, some sent, some sender, some subj => do
      let (sname, semail) ← match sender with
        | [] => throw EatError.indexError
        | p :: _ => pure p
      let saddr ← match parseEmailAddress semail with
        | none => throw (EatError.addressFormat semail)
        | some a => pure a
      let senderContact : Contact := ⟨saddr, some sname⟩
      let toContact : Option Contact ← match dh.to_ with
        | none => pure none
        | some [] => throw EatError.indexError
        | some ((tname, temail) :: _) =>
          if tname ≠ [] ∨ temail ≠ [] then
            match parseEmailAddress temail with
            | none => throw (EatError.addressFormat temail)
            | some a => pure (some ⟨a, some tname⟩)
          else pure none
      let contentPlain : List (Str × Str) :=
        match m.text_plain with
        | [] => []
        | p :: _ => [(str "text/plain", stripCidMarkers m.attachments p)]
      let contentHtml : List (Str × Str) ← match m.text_html with
        | [] => pure []
        | h :: _ =>
          match inlineImages ci m.attachments h with
          | .error e => throw (.imageError e)
          | .ok h2 => pure [(str "text/html", h2)]
      pure { sent := sent
             sender := senderContact
             subject := subj
             thread_topic := thread_topic
             content := contentPlain ++ contentHtml
             to_ := toContact
             message_id := mid }
    | _, _, _, _ => throw EatError.indexError

/-!  ### Concrete sample values used by witnesses and counterexamples -/

/-- Sample timestamp. -/
def dtSample : PyDateTime := ⟨2024, 1, 1, 10, 0, 0, 0⟩

/-- A compressor that succeeds with a fixed compressed payload. -/
def ciOk : Str → Except CompressError Str := fun _ => .ok (str "COMPRESSED")

/-- A compressor that rejects every payload. -/
def ciBad : Str → Except CompressError Str := fun _ => .error .notAnImage

/-- A sample attachment: angle-bracketed content identifier `img1`, no
transfer encoding, payload containing a wrapped newline. -/
def attSample : Attachment := ⟨str "<img1>", none, str "PAY\nLOAD"⟩

/-- A sample mail whose two body variants both reference the attachment. -/
def mailSample : MailParsed :=
  { message_id := str "mid-1"
    date := some dtSample
    from_ := [(str "Alice", str "a@b.com")]
    subject := str "hello"
    to_ := []
    headers := []
    text_plain := [str "see [cid:img1] ok"]
    text_html := [str "<img src=" ++ [dquoteC] ++ str "cid:img1" ++ [dquoteC] ++ str ">"]
    attachments := [attSample] }

/-- A sample mail whose HTML body does not reference the attachment. -/
def mailUnreferenced : MailParsed :=
  { mailSample with text_plain := [], text_html := [str "<p>hi</p>"] }

/-- A sample mail missing both Message-ID and Subject. -/
def mailMissingHeaders : MailParsed :=
  { mailSample with
      message_id := [], subject := [], text_plain := [], text_html := [], attachments := [] }

/-- A sample digested email with only a plain body. -/
def emailPlainSample : Email :=
  { sent := dtSample
    sender := ⟨⟨str "a", str "b.com"⟩, some (str "Alice")⟩
    subject := str "hello"
    thread_topic := none
    content := [(str "text/plain", str "hi there")]
    to_ := none
    message_id := str "mid-1" }

/-- A sample digested email with only an HTML body. -/
def emailHtmlSample : Email :=
  { emailPlainSample with content := [(str "text/html", str "<p>hi</p>")] }

/-- A sample digested email with no body variant. -/
def emailEmptySample : Email := { emailPlainSample with content := [] }

/-- The dormspam example plaintext, one space before the marker. -/
def dormspamExample : Str :=
  str "Bcc" ++ [aposC] ++ str "d to all dorms; yellow for bc-talk"

/-- The dormspam plaintext with three spaces before the marker. -/
def dormspamWide : Str :=
  str "Bcc" ++ [aposC] ++ str "d to all dorms; yellow   for bc-talk"

/-- A sample digested email whose plaintext is the dormspam example. -/
def emailYellowSample : Email :=
  { emailPlainSample with content := [(str "text/plain", dormspamExample)] }

/-- A sample digested email whose plaintext has the extra spaces before the
marker. -/
def emailWideSample : Email :=
  { emailPlainSample with content := [(str "text/plain", dormspamWide)] }

/-!  ## Helper lemmas -/

/-- Fixed-width take is stable under extending the input. -/
theorem takeN_append {n : Nat} : ∀ {xs s a r : Str},
    takeN n xs = some (a, r) → takeN n (xs ++ s) = some (a, r ++ s) := by
  induction n with
  | zero =>
    intro xs s a r h
    simp [takeN] at h
    simp [takeN, h.1, h.2]
  | succ k ih =>
    intro xs s a r h
    cases xs with
    | nil => simp [takeN] at h
    | cons c cs =>
      simp only [takeN, Option.map_eq_some'] at h
      obtain ⟨⟨a1, r1⟩, hp, he⟩ := h
      injection he with ha hr
      subst ha hr
      simp [List.cons_append, takeN, ih hp]

/-- A fixed-width field run is stable under extending the input. -/
theorem runFields_append : ∀ (fs : List FSpec) {cs s : Str} {vs : List Str} {r : Str},
    runFields fs cs = some (vs, r) → runFields fs (cs ++ s) = some (vs, r ++ s) := by
  intro fs
  induction fs with
  | nil =>
    intro cs s vs r h
    simp [runFields] at h
    simp [runFields, h.1, h.2]
  | cons f fspecs ih =>
    intro cs s vs r h
    simp only [runFields, Option.bind_eq_some] at h
    obtain ⟨⟨a1, r1⟩, ht, hrest⟩ := h
    by_cases hok : f.ok a1 = true
    · rw [if_pos hok] at hrest
      simp only [Option.map_eq_some'] at hrest
      obtain ⟨⟨vs2, r2⟩, hq, he⟩ := hrest
      injection he with hv hr
      subst hv hr
      rw [runFields, takeN_append ht]
      simp [hok, ih hq]
    · rw [if_neg hok] at hrest
      exact absurd hrest (by simp)

/-- The matching core is stable under extending the input: the extension ends
up in the unconverted remainder. -/
theorem strptimeCore_append {p s : Str} {d : PyDateTime} {r : Str}
    (h : strptimeCore p = some (d, r)) : strptimeCore (p ++ s) = some (d, r ++ s) := by
  simp only [strptimeCore, Option.bind_eq_some] at h
  obtain ⟨⟨vs, rest⟩, hrun, hdec⟩ := h
  simp only [Option.map_eq_some'] at hdec
  obtain ⟨d2, hd2, he⟩ := hdec
  injection he with h1 h2
  subst h1 h2
  simp only [strptimeCore]
  rw [runFields_append fmtRfc822 hrun]
  simp [hd2]

/-- C5 core step: a parse that succeeds on a prefix yields, on the extended
input, a failure carrying exactly the extension as unconverted data. -/
theorem strptimeRfc822_append {p s : Str} {d : PyDateTime}
    (hp : strptimeRfc822 p = .ok d) (hs : s ≠ []) :
    strptimeRfc822 (p ++ s) = .error (.unconvertedDataRemains s) := by
  have hcore : strptimeCore p = some (d, []) := by
    unfold strptimeRfc822 at hp
    cases h : strptimeCore p with
    | none => rw [h] at hp; simp at hp
    | some pr =>
      obtain ⟨d0, r0⟩ := pr
      rw [h] at hp
      by_cases hr : r0 = []
      · subst hr
        simp at hp
        rw [hp]
      · simp [hr] at hp
  unfold strptimeRfc822
  rw [strptimeCore_append hcore]
  simp [hs]

/-- C5: For every input consisting of a valid timestamp prefix in the format
`%a, %d %b %Y %H:%M:%S %z` followed by non-empty trailing unconverted
characters, `parse_date` does not fail: it strips the trailing characters and
returns the result of re-parsing the prefix. -/
theorem C5_parse_date_trailing_noise (p s : Str) (d : PyDateTime)
    (hp : strptimeRfc822 p = .ok d) (hs : s ≠ []) :
    parse_date (p ++ s) = .ok d := by
  unfold parse_date
  rw [strptimeRfc822_append hp hs]
  show strptimeRfc822 ((p ++ s).take ((p ++ s).length - s.length)) = .ok d
  have hlen : (p ++ s).length - s.length = p.length := by
    simp [List.length_append]
  rw [hlen, List.take_left]
  exact hp

/-- Witness for C5 at a concrete timestamp with a parenthesized timezone
name as trailing noise. -/
theorem C5_parse_date_trailing_noise_witness :
    parse_date (str "Mon, 01 Jan 2024 10:00:00 +0000" ++ str " (UTC)") =
      .ok ⟨2024, 1, 1, 10, 0, 0, 0⟩ :=
  C5_parse_date_trailing_noise (str "Mon, 01 Jan 2024 10:00:00 +0000") (str " (UTC)")
    ⟨2024, 1, 1, 10, 0, 0, 0⟩ rfl (by decide)

/-- C1: a message whose Message-ID and Subject are empty but whose Date and
From are present is digested into a single `EmailMissingHeaders` failure
listing exactly `Message-ID` and `Subject`, in nibble order — every missing
required header is attempted and recorded before the failure is raised. -/
theorem C1_missing_headers_aggregated (ci : Str → Except CompressError Str)
    (m : MailParsed) (h1 : m.message_id = []) (h2 : m.subject = [])
    (h3 : m.date.isSome = true) (h4 : m.from_ ≠ []) :
    headersNotFound m = [str "Message-ID", str "Subject"] ∧
      eat ci m =
        .error (.missingHeaders (formatHeaders [str "Message-ID", str "Subject"])) := by
  have hnf : (digestHeaders m).headers_not_found = [str "Message-ID", str "Subject"] := by
    simp [digestHeaders, nibble, h1, h2, h3, h4, List.isEmpty_iff]
  refine ⟨hnf, ?_⟩
  unfold eat
  simp only [hnf]
  rfl

/-- Witness for C1 at a concrete mail missing Message-ID and Subject. -/
theorem C1_missing_headers_aggregated_witness :
    headersNotFound mailMissingHeaders = [str "Message-ID", str "Subject"] ∧
      eat ciOk mailMissingHeaders =
        .error (.missingHeaders (formatHeaders [str "Message-ID", str "Subject"])) :=
  C1_missing_headers_aggregated ciOk mailMissingHeaders rfl rfl rfl (by decide)

/-- C2: the derived plaintext equals the plain body variant when present;
otherwise it is the converted HTML variant when that is present; otherwise it
is the empty string. -/
theorem C2_plaintext_fallback (e : Email) :
    (∀ s, e.content.lookup (str "text/plain") = some s → e.plaintext = s) ∧
    (e.content.lookup (str "text/plain") = none →
      ∀ h, e.content.lookup (str "text/html") = some h → e.plaintext = html2text h) ∧
    (e.content.lookup (str "text/plain") = none →
      e.content.lookup (str "text/html") = none → e.plaintext = []) := by
  refine ⟨?_, ?_, ?_⟩
  · intro s hs
    unfold Email.plaintext
    rw [hs]
  · intro hp h hh
    unfold Email.plaintext
    rw [hp, hh]
  · intro hp hh
    unfold Email.plaintext
    rw [hp, hh]

/-- Witness for C2: the three fallback cases at concrete emails. -/
theorem C2_plaintext_fallback_witness :
    emailPlainSample.plaintext = str "hi there" ∧
      emailHtmlSample.plaintext = html2text (str "<p>hi</p>") ∧
      emailEmptySample.plaintext = [] :=
  ⟨(C2_plaintext_fallback emailPlainSample).1 (str "hi there") rfl,
   (C2_plaintext_fallback emailHtmlSample).2.1 rfl (str "<p>hi</p>") rfl,
   (C2_plaintext_fallback emailEmptySample).2.2 rfl rfl⟩

/-- C10: when the MIME parser yields several plain-text or HTML body parts,
digestion reads only the first element of each list — the result is the same
as if the later parts were absent, with no merging and no error. -/
theorem C10_first_body_part_only (ci : Str → Except CompressError Str)
    (m : MailParsed) (p q : Str) (ps qs : List Str) :
    eat ci { m with text_plain := p :: ps, text_html := q :: qs } =
      eat ci { m with text_plain := [p], text_html := [q] } := rfl

/-- Every capture alternative of the greedy-plus matcher is non-empty. -/
theorem mplusCap_fst_ne_nil {p : Char → Bool} :
    ∀ {cs : Str} {pr : Str × Str}, pr ∈ mplusCap p cs → pr.1 ≠ [] := by
  intro cs
  induction cs with
  | nil => intro pr h; simp [mplusCap] at h
  | cons c r ih =>
    intro pr h
    rw [mplusCap] at h
    by_cases hc : p c = true
    · rw [if_pos hc] at h
      rcases List.mem_append.mp h with h1 | h1
      · obtain ⟨q, _, he⟩ := List.mem_map.mp h1
        rw [← he]
        simp
      · simp at h1
        rw [h1]
        simp
    · rw [if_neg hc] at h
      simp at h

/-- A successful match at a position returns a non-empty capture. -/
theorem matchColorAt_some_ne_nil {w : Bool} {cs cap : Str}
    (h : matchColorAt w cs = some cap) : cap ≠ [] := by
  unfold matchColorAt at h
  cases w with
  | true => simp at h
  | false =>
    rw [if_neg (by simp)] at h
    obtain ⟨r1, _, h2⟩ := List.exists_of_findSome?_eq_some h
    obtain ⟨pr, hpr, h3⟩ := List.exists_of_findSome?_eq_some h2
    by_cases hb : patB pr.2 = true
    · rw [if_pos hb] at h3
      injection h3 with hc
      rw [← hc]
      exact mplusCap_fst_ne_nil hpr
    · rw [if_neg hb] at h3
      cases h3

/-- A successful search returns a non-empty capture. -/
theorem searchColor_some_ne_nil :
    ∀ {cs : Str} {w : Bool} {cap : Str}, searchColor w cs = some cap → cap ≠ [] := by
  intro cs
  induction cs with
  | nil => intro w cap h; simp [searchColor] at h
  | cons c r ih =>
    intro w cap h
    rw [searchColor] at h
    cases hm : matchColorAt w (c :: r) with
    | some cap2 =>
      rw [hm] at h
      injection h with he
      rw [← he]
      exact matchColorAt_some_ne_nil hm
    | none =>
      rw [hm] at h
      exact ih h

/-- C7: the broadcast flag is true exactly when a color is present: the
pattern's capture group is non-empty whenever it matches, so the Python
truthiness test on the captured string coincides with presence. -/
theorem C7_dormspam_iff_color (e : Email) : e.dormspam = (e.color).isSome := by
  unfold Email.dormspam
  cases hc : e.color with
  | none => simp
  | some s =>
    have hne : s ≠ [] := @searchColor_some_ne_nil e.plaintext false s hc
    simp [List.isEmpty_iff, hne]

/-- Counterexample to C8 as stated: with three spaces between the phrase and
the `for bc-talk` marker, the greedy capture keeps two trailing whitespace
characters, so the returned color is not trimmed of surrounding separators. -/
theorem C8_color_trimming_counterexample :
    emailWideSample.color = some (str "yellow  ") ∧
      pyStrip (str "yellow  ") ≠ str "yellow  " :=
  ⟨rfl, by decide⟩

/-- C8 amended: the returned color is the phrase captured between the
dorm-list clause and the `for bc-talk` marker; the pattern consumes the
separators before the phrase and one whitespace run after it greedily, but the
capture may retain whitespace when extra whitespace precedes the marker.  In
particular the single-space example yields dormspam true and color exactly
`yellow`. -/
theorem C8_color_concrete_example :
    emailYellowSample.color = some (str "yellow") ∧
      emailYellowSample.dormspam = true :=
  ⟨rfl, rfl⟩

/-- Counterexample to C9 as stated: `a&amp;b` contains no tags, yet the
converter resolves the entity reference, so the output differs from the
stripped input. -/
theorem C9_idempotence_counterexample :
    (str "a&amp;b").contains '<' = false ∧
      html2text (str "a&amp;b") ≠ pyStrip (str "a&amp;b") := by
  constructor
  · decide
  · decide

/-- C9 amended: the converter is the identity up to stripping on text that
contains no tags and no entity references (no `<` and no `&` characters). -/
theorem C9_plain_text_strip (s : Str) (h : ∀ c ∈ s, ¬ (c = '<' ∨ c = '&')) :
    html2text s = pyStrip s := by
  cases s with
  | nil => rfl
  | cons c rest =>
    have hc : ¬ (c = '<' ∨ c = '&') := h c (by simp)
    have hc1 : ¬ c = '<' := fun hx => hc (Or.inl hx)
    have hc2 : ¬ c = '&' := fun hx => hc (Or.inr hx)
    have hall : ∀ x ∈ rest, (fun x => decide (¬ (x = '<' ∨ x = '&'))) x = true := by
      intro x hx
      simp only [decide_eq_true_eq]
      exact h x (List.mem_cons_of_mem c hx)
    have htw : rest.takeWhile (fun x => decide (¬ (x = '<' ∨ x = '&'))) = rest :=
      List.takeWhile_eq_self_iff.mpr hall
    have hdw : rest.dropWhile (fun x => decide (¬ (x = '<' ∨ x = '&'))) = [] :=
      List.dropWhile_eq_nil_iff.mpr hall
    unfold html2text tokenize
    simp only [List.length_cons]
    rw [tokenizeFuel]
    rw [if_neg hc1, if_neg hc2]
    rw [htw, hdw]
    simp [tokenizeFuel, convertEvents, getText, handleEvent]

/-- Witness for C9 amended at a concrete tag-free, entity-free string. -/
theorem C9_plain_text_strip_witness :
    html2text (str "  plain text  ") = pyStrip (str "  plain text  ") :=
  C9_plain_text_strip (str "  plain text  ") (by decide)

/-- C6: entity references are resolved through the fixed table — `nbsp` to
space, `lt`, `gt`, `amp`, `quot`, `apos` to their characters — and any entity
whose name is not in the table contributes the empty string to the output;
the handler is total, so no input raises an error. -/
theorem C6_entity_table_resolution :
    (∀ (parts : List Str) (n : Str),
        handleEvent parts (HEvent.entityref n) = parts ++ [entityResolve n]) ∧
    entityResolve (str "nbsp") = str " " ∧
    entityResolve (str "lt") = str "<" ∧
    entityResolve (str "gt") = str ">" ∧
    entityResolve (str "amp") = str "&" ∧
    entityResolve (str "quot") = [dquoteC] ∧
    entityResolve (str "apos") = [aposC] ∧
    (∀ n, entitiesTable.lookup n = none → entityResolve n = []) ∧
    (∀ h, html2text h = convertEvents (tokenize h)) := by
  refine ⟨fun parts n => rfl, rfl, rfl, rfl, rfl, rfl, rfl, fun n hn => ?_, fun h => rfl⟩
  unfold entityResolve
  rw [hn]
  rfl

/-- Witness for C6: an entity name outside the table resolves to the empty
string. -/
theorem C6_entity_table_resolution_witness : entityResolve (str "unknown") = [] :=
  C6_entity_table_resolution.2.2.2.2.2.2.2.1 (str "unknown") (by decide)

/-- If the pattern does not occur in the input, the replacement loop returns
the input unchanged, whatever the fuel. -/
theorem pyReplaceFuel_of_not_contains (old new : Str) :
    ∀ (fuel : Nat) (s : Str), containsSub old s = false →
      pyReplaceFuel old new fuel s = s := by
  intro fuel
  induction fuel with
  | zero =>
    intro s _
    cases s <;> rfl
  | succ k ih =>
    intro s h
    cases s with
    | nil => rfl
    | cons c r =>
      rw [containsSub, Bool.or_eq_false_iff] at h
      obtain ⟨h1, h2⟩ := h
      rw [pyReplaceFuel, if_neg (fun hcon => by rw [h1] at hcon; exact absurd hcon.2 (by simp))]
      rw [ih r h2]

/-- Python `str.replace` with a pattern that does not occur is the
identity. -/
theorem pyReplace_of_not_contains {old new s : Str} (h : containsSub old s = false) :
    pyReplace old new s = s :=
  pyReplaceFuel_of_not_contains old new s.length s h

/-- C4: digestion deletes every occurrence of the `[cid:...]` marker from the
plain body and substitutes the compressed data URI for the `src="cid:..."`
reference in the HTML body, with the transfer encoding defaulting to base64
when the attachment specifies none and the payload newline-stripped before
compression. -/
theorem C4_inline_image_rewrites (ci : Str → Except CompressError Str)
    (mid subj sn se pl hb comp : Str) (dt : PyDateTime) (ad : EmailAddress)
    (a : Attachment) (hdrs : List (Str × Str))
    (hmid : mid ≠ []) (hsub : subj ≠ [])
    (haddr : parseEmailAddress se = some ad)
    (hcid : pyStripAngles a.contentId ≠ [])
    (hci : ci (payloadFixed a) = .ok comp) :
    eat ci ⟨mid, some dt, [(sn, se)], subj, [], hdrs, [pl], [hb], [a]⟩ =
      .ok ⟨dt, ⟨ad, some sn⟩, subj, hdrs.lookup (str "Thread-Topic"),
        [(str "text/plain", pyReplace (cidMarker (pyStripAngles a.contentId)) [] pl),
         (str "text/html",
           pyReplace (srcCidMarker (pyStripAngles a.contentId))
             (srcDataUri (cteOf a) comp) hb)],
        none, mid⟩ ∧
      (a.contentTransferEncoding = none → cteOf a = str "base64") := by
  constructor
  · have h1 : mid.isEmpty = false := by simp [List.isEmpty_iff, hmid]
    have h2 : subj.isEmpty = false := by simp [List.isEmpty_iff, hsub]
    simp only [eat, digestHeaders, nibble, h1, h2]
    simp only [stripCidMarkers, inlineImages, List.foldl, List.foldlM, if_pos hcid, hci, haddr]
    simp [haddr]
    rfl
  · intro hn
    simp [cteOf, hn]

/-- Witness for C4 at the concrete sample mail: payload newlines are stripped
before compression, the plain marker is deleted, the HTML reference becomes
the base64 data URI. -/
theorem C4_inline_image_rewrites_witness :
    eat ciOk mailSample =
      .ok ⟨dtSample, ⟨⟨str "a", str "b.com"⟩, some (str "Alice")⟩, str "hello", none,
        [(str "text/plain",
           pyReplace (cidMarker (str "img1")) [] (str "see [cid:img1] ok")),
         (str "text/html",
           pyReplace (srcCidMarker (str "img1"))
             (srcDataUri (str "base64") (str "COMPRESSED"))
             (str "<img src=" ++ [dquoteC] ++ str "cid:img1" ++ [dquoteC] ++ str ">"))],
        none, str "mid-1"⟩ ∧
      (attSample.contentTransferEncoding = none → cteOf attSample = str "base64") :=
  C4_inline_image_rewrites ciOk (str "mid-1") (str "hello") (str "Alice") (str "a@b.com")
    (str "see [cid:img1] ok")
    (str "<img src=" ++ [dquoteC] ++ str "cid:img1" ++ [dquoteC] ++ str ">")
    (str "COMPRESSED") dtSample ⟨str "a", str "b.com"⟩ attSample []
    (by decide) (by decide) rfl (by decide) rfl

/-- Counterexample to C3 as stated: the HTML body contains no reference to
the attachment, yet digestion fails, because the compressor is invoked for
every attachment with a non-empty content identifier before the substring
replacement happens. -/
theorem C3_unreferenced_attachment_counterexample :
    containsSub (srcCidMarker (pyStripAngles attSample.contentId)) (str "<p>hi</p>") = false ∧
      eat ciBad mailUnreferenced = .error (.imageError .notAnImage) :=
  ⟨by decide, rfl⟩

/-- C3 amended: when the cid reference occurs zero times in the HTML body the
replacement itself performs zero substitutions and raises no error — the body
is returned unchanged — provided the compressor succeeds on that attachment;
the compressor is still invoked, so an image-decoding failure on an
unreferenced attachment does fail digestion. -/
theorem C3_zero_matches_zero_replacements (ci : Str → Except CompressError Str)
    (mid subj sn se hb comp : Str) (dt : PyDateTime) (ad : EmailAddress)
    (a : Attachment) (hdrs : List (Str × Str))
    (hmid : mid ≠ []) (hsub : subj ≠ [])
    (haddr : parseEmailAddress se = some ad)
    (hcid : pyStripAngles a.contentId ≠ [])
    (hnoocc : containsSub (srcCidMarker (pyStripAngles a.contentId)) hb = false)
    (hci : ci (payloadFixed a) = .ok comp) :
    eat ci ⟨mid, some dt, [(sn, se)], subj, [], hdrs, [], [hb], [a]⟩ =
      .ok ⟨dt, ⟨ad, some sn⟩, subj, hdrs.lookup (str "Thread-Topic"),
        [(str "text/html", hb)], none, mid⟩ := by
  have h1 : mid.isEmpty = false := by simp [List.isEmpty_iff, hmid]
  have h2 : subj.isEmpty = false := by simp [List.isEmpty_iff, hsub]
  simp only [eat, digestHeaders, nibble, h1, h2]
  simp only [stripCidMarkers, inlineImages, List.foldl, List.foldlM, if_pos hcid, hci, haddr]
  simp [haddr]
  rw [pyReplace_of_not_contains hnoocc]
  rfl

/-- Witness for C3 amended: the sample mail with an unreferenced attachment
and a succeeding compressor digests with its HTML body unchanged. -/
theorem C3_zero_matches_zero_replacements_witness :
    eat ciOk mailUnreferenced =
      .ok ⟨dtSample, ⟨⟨str "a", str "b.com"⟩, some (str "Alice")⟩, str "hello", none,
        [(str "text/html", str "<p>hi</p>")], none, str "mid-1"⟩ :=
  C3_zero_matches_zero_replacements ciOk (str "mid-1") (str "hello") (str "Alice")
    (str "a@b.com") (str "<p>hi</p>") (str "COMPRESSED") dtSample
    ⟨str "a", str "b.com"⟩ attSample []
    (by decide) (by decide) rfl (by decide) (by decide) rfl
